import Mathlib

/-
Verification of the transaction, dispatch and catalog behaviour of the
postgres MCP adapter (src/postgres.ts), as a shallow embedding in Lean.

The database driver is modelled as an oracle: a client carries a state
type and answers each issued query (text plus parameter list) with a new
state and either a result or an error.  Every operation of the adapter is
embedded as a function that returns the final oracle state, the list of
observable events it performed (acquiring a connection lease, issuing a
query, releasing the lease, emitting the rollback warning), and its
outcome.
-/

/- JSON values, as produced by the pg driver rows and consumed by the
   handlers.  JSON serialization abstracts JavaScript JSON.stringify
   (compact rather than 2-space pretty printed; the claims are about the
   shape of the payload, not about whitespace). -/
inductive Json where
  | null : Json
  | str : String → Json
  | num : Int → Json
  | arr : List Json → Json
  | obj : List (String × Json) → Json

mutual

def Json.stringify : Json → String
  | .null => "null"
  | .str s => "\x22" ++ s ++ "\x22"
  | .num n => toString n
  | .arr xs => "[" ++ Json.stringifyElems xs ++ "]"
  | .obj fs => "\x7b" ++ Json.stringifyFields fs ++ "\x7d"

def Json.stringifyElems : List Json → String
  | [] => ""
  | [x] => Json.stringify x
  | x :: y :: xs => Json.stringify x ++ "," ++ Json.stringifyElems (y :: xs)

def Json.stringifyFields : List (String × Json) → String
  | [] => ""
  | [(k, v)] => "\x22" ++ k ++ "\x22:" ++ Json.stringify v
  | (k, v) :: f :: fs =>
      "\x22" ++ k ++ "\x22:" ++ Json.stringify v ++ "," ++ Json.stringifyFields (f :: fs)

end

/- A database-driver error (the pg driver surfaces an Error object; only
   its identity matters to the adapter, modelled by its message). -/
structure DbError where
  message : String
deriving DecidableEq

/- The result of one client.query call: rows, rowCount (number or null in
   the driver, hence Option) and the command tag. -/
structure QueryResult where
  rows : List Json
  rowCount : Option Int
  command : String

/- Observable events of one adapter operation, in order:
   pool.connect (lease acquired), client.query text params,
   client.release (lease returned), and the console.warn emitted when a
   recovery rollback itself fails. -/
inductive Event where
  | connect : Event
  | query : String → List String → Event
  | release : Event
  | warn : Event
deriving DecidableEq

/- The driver oracle: a stateful answer to each issued query. -/
structure Client (σ : Type) where
  runQuery : σ → String → List String → σ × Except DbError QueryResult

/- Outcome of one embedded operation: final oracle state, event trace,
   and result or thrown error. -/
structure Run (σ : Type) (ε : Type) (α : Type) where
  state : σ
  events : List Event
  result : Except ε α

variable {σ : Type}

/- The recovery rollback of the catch block of executeSql
   (src/postgres.ts lines 117-121): attempt ROLLBACK; when the rollback
   itself fails, only a warning is emitted. -/
def rollbackRecovery (c : Client σ) (s : σ) : σ × List Event :=
  match c.runQuery s "ROLLBACK" [] with
  | (s2, .ok _) => (s2, [Event.query "ROLLBACK" []])
  | (s2, .error _) => (s2, [Event.query "ROLLBACK" [], Event.warn])

/- executeSql (src/postgres.ts lines 100-126).  Acquires a connection,
   opens the transaction in the mode selected by the readOnly flag, runs
   the statement, closes the transaction (ROLLBACK when read only, COMMIT
   otherwise); on any failure before the transaction completed, attempts
   a recovery rollback and rethrows the original error; the lease is
   released on every path (the finally block). -/
def executeSql (c : Client σ) (s : σ) (sql : String) (readOnly : Bool) :
    Run σ DbError QueryResult :=
  match c.runQuery s (if readOnly then "BEGIN TRANSACTION READ ONLY" else "BEGIN") [] with
  | (s1, .error e) =>
      ⟨(rollbackRecovery c s1).1,
        [Event.connect,
          Event.query (if readOnly then "BEGIN TRANSACTION READ ONLY" else "BEGIN") []]
          ++ (rollbackRecovery c s1).2 ++ [Event.release],
        .error e⟩
  | (s1, .ok _) =>
      match c.runQuery s1 sql [] with
      | (s2, .error e) =>
          ⟨(rollbackRecovery c s2).1,
            [Event.connect,
              Event.query (if readOnly then "BEGIN TRANSACTION READ ONLY" else "BEGIN") [],
              Event.query sql []]
              ++ (rollbackRecovery c s2).2 ++ [Event.release],
            .error e⟩
      | (s2, .ok result) =>
          match c.runQuery s2 (if readOnly then "ROLLBACK" else "COMMIT") [] with
          | (s3, .error e) =>
              ⟨(rollbackRecovery c s3).1,
                [Event.connect,
                  Event.query (if readOnly then "BEGIN TRANSACTION READ ONLY" else "BEGIN") [],
                  Event.query sql [],
                  Event.query (if readOnly then "ROLLBACK" else "COMMIT") []]
                  ++ (rollbackRecovery c s3).2 ++ [Event.release],
                .error e⟩
          | (s3, .ok _) =>
              ⟨s3,
                [Event.connect,
                  Event.query (if readOnly then "BEGIN TRANSACTION READ ONLY" else "BEGIN") [],
                  Event.query sql [],
                  Event.query (if readOnly then "ROLLBACK" else "COMMIT") [],
                  Event.release],
                .ok result⟩

/- Lease accounting over an event trace. -/
def countConnect : List Event → Nat
  | [] => 0
  | Event.connect :: r => countConnect r + 1
  | _ :: r => countConnect r

def countRelease : List Event → Nat
  | [] => 0
  | Event.release :: r => countRelease r + 1
  | _ :: r => countRelease r

def leaseBalanced (ev : List Event) : Prop :=
  countConnect ev = countRelease ev

/- Helper lemmas about lease accounting and the recovery rollback. -/

lemma countConnect_append (xs ys : List Event) :
    countConnect (xs ++ ys) = countConnect xs + countConnect ys := by
  induction xs with
  | nil => simp [countConnect]
  | cons a xs ih =>
    cases a <;> simp [countConnect, ih]
    all_goals omega

lemma countRelease_append (xs ys : List Event) :
    countRelease (xs ++ ys) = countRelease xs + countRelease ys := by
  induction xs with
  | nil => simp [countRelease]
  | cons a xs ih =>
    cases a <;> simp [countRelease, ih]
    all_goals omega

lemma rollbackRecovery_countConnect (c : Client σ) (s : σ) :
    countConnect (rollbackRecovery c s).2 = 0 := by
  unfold rollbackRecovery
  rcases h : c.runQuery s "ROLLBACK" [] with ⟨s2, r⟩
  cases r <;> simp [h, countConnect]

lemma rollbackRecovery_countRelease (c : Client σ) (s : σ) :
    countRelease (rollbackRecovery c s).2 = 0 := by
  unfold rollbackRecovery
  rcases h : c.runQuery s "ROLLBACK" [] with ⟨s2, r⟩
  cases r <;> simp [h, countRelease]

lemma rollbackRecovery_mem (c : Client σ) (s : σ) :
    Event.query "ROLLBACK" [] ∈ (rollbackRecovery c s).2 := by
  unfold rollbackRecovery
  rcases h : c.runQuery s "ROLLBACK" [] with ⟨s2, r⟩
  cases r <;> simp [h]

/- A driver oracle on which every query succeeds with a fixed result, and
   one that fails on the statement BOOM and on ROLLBACK; both are used to
   evaluate the theorems at concrete inputs. -/

def okResult : QueryResult := ⟨[], some 0, "SELECT"⟩

def okClient : Client Unit := ⟨fun _ _ _ => ((), .ok okResult)⟩

def failClient : Client Unit :=
  ⟨fun _ q _ =>
    ((), if q = "BOOM" ∨ q = "ROLLBACK" then .error ⟨"boom: " ++ q⟩ else .ok okResult)⟩

/-- Claim C1: executeSql opens the transaction with BEGIN TRANSACTION READ
ONLY when readOnly is true and with BEGIN otherwise, and on successful
execution closes it with ROLLBACK when readOnly is true and with COMMIT
when readOnly is false. -/
theorem executeSql_transaction_mode (c : Client σ) (s : σ) (sql : String) (ro : Bool) :
    (∃ rest, (executeSql c s sql ro).events =
      Event.connect :: Event.query (if ro then "BEGIN TRANSACTION READ ONLY" else "BEGIN") [] :: rest)
    ∧ ∀ r, (executeSql c s sql ro).result = .ok r →
        (executeSql c s sql ro).events =
          [Event.connect,
           Event.query (if ro then "BEGIN TRANSACTION READ ONLY" else "BEGIN") [],
           Event.query sql [],
           Event.query (if ro then "ROLLBACK" else "COMMIT") [],
           Event.release] := by
  unfold executeSql
  rcases h1 : c.runQuery s (if ro then "BEGIN TRANSACTION READ ONLY" else "BEGIN") [] with ⟨s1, r1⟩
  cases r1 with
  | error e => simp [h1]
  | ok v1 =>
    rcases h2 : c.runQuery s1 sql [] with ⟨s2, r2⟩
    cases r2 with
    | error e => simp [h1, h2]
    | ok v2 =>
      rcases h3 : c.runQuery s2 (if ro then "ROLLBACK" else "COMMIT") [] with ⟨s3, r3⟩
      cases r3 with
      | error e => simp [h1, h2, h3]
      | ok v3 => simp [h1, h2, h3]

theorem executeSql_transaction_mode_check :
    (executeSql okClient () "SELECT 1" true).events =
      [Event.connect, Event.query "BEGIN TRANSACTION READ ONLY" [],
       Event.query "SELECT 1" [], Event.query "ROLLBACK" [], Event.release] :=
  (executeSql_transaction_mode okClient () "SELECT 1" true).2 okResult rfl

/-- Claim C2: whenever executeSql fails after the connection is acquired
(transaction open, statement execution, or close failure), a rollback is
attempted, and the original error of the first failing step is the one
propagated to the caller, never the rollback failure. -/
theorem executeSql_original_error (c : Client σ) (s : σ) (sql : String) (ro : Bool) :
    (∀ s1 e,
      c.runQuery s (if ro then "BEGIN TRANSACTION READ ONLY" else "BEGIN") [] = (s1, .error e) →
        (executeSql c s sql ro).result = .error e ∧
        Event.query "ROLLBACK" [] ∈ (executeSql c s sql ro).events) ∧
    (∀ s1 v1 s2 e,
      c.runQuery s (if ro then "BEGIN TRANSACTION READ ONLY" else "BEGIN") [] = (s1, .ok v1) →
      c.runQuery s1 sql [] = (s2, .error e) →
        (executeSql c s sql ro).result = .error e ∧
        Event.query "ROLLBACK" [] ∈ (executeSql c s sql ro).events) ∧
    (∀ s1 v1 s2 v2 s3 e,
      c.runQuery s (if ro then "BEGIN TRANSACTION READ ONLY" else "BEGIN") [] = (s1, .ok v1) →
      c.runQuery s1 sql [] = (s2, .ok v2) →
      c.runQuery s2 (if ro then "ROLLBACK" else "COMMIT") [] = (s3, .error e) →
        (executeSql c s sql ro).result = .error e ∧
        Event.query "ROLLBACK" [] ∈ (executeSql c s sql ro).events) := by
  refine ⟨fun s1 e h1 => ?_, fun s1 v1 s2 e h1 h2 => ?_, fun s1 v1 s2 v2 s3 e h1 h2 h3 => ?_⟩
  · unfold executeSql
    simp [h1, rollbackRecovery_mem]
  · unfold executeSql
    simp [h1, h2, rollbackRecovery_mem]
  · unfold executeSql
    simp [h1, h2, h3, rollbackRecovery_mem]

theorem executeSql_original_error_check :
    (executeSql failClient () "BOOM" false).result = .error ⟨"boom: BOOM"⟩ ∧
    Event.query "ROLLBACK" [] ∈ (executeSql failClient () "BOOM" false).events :=
  (executeSql_original_error failClient () "BOOM" false).2.1
    () okResult () ⟨"boom: BOOM"⟩ rfl rfl

/- JavaScript String.prototype.trim over the character list (the
   whitespace sets agree on the characters relevant here). -/
def jsTrim (s : String) : String :=
  ⟨((s.data.dropWhile Char.isWhitespace).reverse.dropWhile Char.isWhitespace).reverse⟩

/- TOOL_DEFINITIONS (src/postgres.ts lines 67-98): the six fixed commands
   with their static readOnly flags. -/
structure ToolDefinition where
  name : String
  description : String
  readOnly : Bool
deriving DecidableEq

def TOOL_DEFINITIONS : List ToolDefinition :=
  [⟨"query", "Run a read-only SQL query", true⟩,
   ⟨"insert", "Execute an INSERT statement", false⟩,
   ⟨"update", "Execute an UPDATE statement", false⟩,
   ⟨"delete", "Execute a DELETE statement", false⟩,
   ⟨"function_call", "Invoke a stored function (SELECT or CALL)", false⟩,
   ⟨"function_create", "Create or replace a stored function", false⟩]

structure TextContent where
  type : String
  text : String

structure ToolResponse where
  content : List TextContent
  isError : Bool

inductive ToolError where
  | unknownTool : String → ToolError
  | invalidSqlArgument : ToolError
  | db : DbError → ToolError

def jsonOfRowCount : Option Int → Json
  | none => Json.null
  | some n => Json.num n

/- The CallToolRequest handler (src/postgres.ts lines 190-222): find the
   tool by name, validate the sql argument (present, a string, non-empty
   after trimming), run executeSql with the static readOnly flag, and
   shape the response by mode. -/
def callToolHandler (c : Client σ) (s : σ) (reqName : String)
    (args : Option (List (String × Json))) : Run σ ToolError ToolResponse :=
  match TOOL_DEFINITIONS.find? (fun t => t.name == reqName) with
  | none => ⟨s, [], .error (.unknownTool reqName)⟩
  | some tool =>
      match args.bind (List.lookup "sql") with
      | some (Json.str sql) =>
          if (jsTrim sql).length = 0 then ⟨s, [], .error .invalidSqlArgument⟩
          else
            match executeSql c s sql tool.readOnly with
            | ⟨s1, ev, .error e⟩ => ⟨s1, ev, .error (.db e)⟩
            | ⟨s1, ev, .ok result⟩ =>
                ⟨s1, ev,
                  .ok ⟨[⟨"text",
                    Json.stringify (if tool.readOnly then Json.arr result.rows
                      else Json.obj [("rowCount", jsonOfRowCount result.rowCount),
                                     ("rows", Json.arr result.rows),
                                     ("command", Json.str result.command)])⟩],
                    false⟩⟩
      | _ => ⟨s, [], .error .invalidSqlArgument⟩

/- The source rejects the sql argument when it is missing, not a string,
   or empty after trimming (src/postgres.ts lines 197-201). -/
def sqlArgRejected : Option Json → Bool
  | some (Json.str s) => (jsTrim s).length == 0
  | _ => true

/-- Claim C4: a tool invocation whose command name is not one of the six
fixed commands fails with the unknown-command error and acquires no
connection (empty event trace, so the SQL Executor is never invoked),
whatever the sql argument holds. -/
theorem callTool_unknown_command (c : Client σ) (s : σ) (reqName : String)
    (args : Option (List (String × Json)))
    (h : reqName ∉ ["query", "insert", "update", "delete", "function_call", "function_create"]) :
    callToolHandler c s reqName args = ⟨s, [], .error (.unknownTool reqName)⟩ := by
  simp only [List.mem_cons, List.not_mem_nil, or_false] at h
  push_neg at h
  obtain ⟨h1, h2, h3, h4, h5, h6⟩ := h
  have e1 : (("query" : String) == reqName) = false :=
    beq_eq_false_iff_ne.mpr (Ne.symm h1)
  have e2 : (("insert" : String) == reqName) = false :=
    beq_eq_false_iff_ne.mpr (Ne.symm h2)
  have e3 : (("update" : String) == reqName) = false :=
    beq_eq_false_iff_ne.mpr (Ne.symm h3)
  have e4 : (("delete" : String) == reqName) = false :=
    beq_eq_false_iff_ne.mpr (Ne.symm h4)
  have e5 : (("function_call" : String) == reqName) = false :=
    beq_eq_false_iff_ne.mpr (Ne.symm h5)
  have e6 : (("function_create" : String) == reqName) = false :=
    beq_eq_false_iff_ne.mpr (Ne.symm h6)
  have hfind : TOOL_DEFINITIONS.find? (fun t => t.name == reqName) = none := by
    simp [TOOL_DEFINITIONS, List.find?, e1, e2, e3, e4, e5, e6]
  simp [callToolHandler, hfind]

theorem callTool_unknown_command_check :
    callToolHandler okClient () "drop" (some [("sql", Json.str "SELECT 1")]) =
      ⟨(), [], .error (.unknownTool "drop")⟩ :=
  callTool_unknown_command okClient () "drop" (some [("sql", Json.str "SELECT 1")])
    (by decide)

/-- Claim C5: a tool invocation with a known command name whose sql
argument is missing, not a string, or empty after trimming fails with the
invalid-argument error and acquires no connection (empty event trace). -/
theorem callTool_invalid_sql_argument (c : Client σ) (s : σ) (reqName : String)
    (args : Option (List (String × Json))) (tool : ToolDefinition)
    (hfind : TOOL_DEFINITIONS.find? (fun t => t.name == reqName) = some tool)
    (harg : sqlArgRejected (args.bind (List.lookup "sql")) = true) :
    callToolHandler c s reqName args = ⟨s, [], .error .invalidSqlArgument⟩ := by
  unfold callToolHandler
  rw [hfind]
  rcases ha : args.bind (List.lookup "sql") with _ | j
  · simp
  · rw [ha] at harg
    cases j with
    | str t =>
      simp only [sqlArgRejected, beq_iff_eq] at harg
      simp [harg]
    | null => simp
    | num n => simp
    | arr l => simp
    | obj l => simp

theorem callTool_invalid_sql_argument_check :
    callToolHandler okClient () "insert" (some [("sql", Json.str "   ")]) =
      ⟨(), [], .error .invalidSqlArgument⟩ :=
  callTool_invalid_sql_argument okClient () "insert" (some [("sql", Json.str "   ")])
    ⟨"insert", "Execute an INSERT statement", false⟩ (by decide) (by decide)

/-- Claim C6: every successful tool invocation produces a payload shaped
by the static readOnly flag of the command — a bare row array for
read-only commands, the rowCount, rows, command envelope for mutating
commands — serialized into the text-content envelope with isError set to
false. -/
theorem callTool_success_payload (c : Client σ) (s : σ) (reqName : String)
    (args : Option (List (String × Json))) (s1 : σ) (ev : List Event) (resp : ToolResponse)
    (h : callToolHandler c s reqName args = ⟨s1, ev, .ok resp⟩) :
    ∃ tool sql result,
      TOOL_DEFINITIONS.find? (fun t => t.name == reqName) = some tool ∧
      args.bind (List.lookup "sql") = some (Json.str sql) ∧
      (executeSql c s sql tool.readOnly).result = .ok result ∧
      resp = ⟨[⟨"text",
        Json.stringify (if tool.readOnly then Json.arr result.rows
          else Json.obj [("rowCount", jsonOfRowCount result.rowCount),
                         ("rows", Json.arr result.rows),
                         ("command", Json.str result.command)])⟩],
        false⟩ := by
  unfold callToolHandler at h
  rcases hfind : TOOL_DEFINITIONS.find? (fun t => t.name == reqName) with _ | tool
  · rw [hfind] at h
    simp [Run.mk.injEq] at h
  · rw [hfind] at h
    rcases ha : args.bind (List.lookup "sql") with _ | j
    · rw [ha] at h
      simp [Run.mk.injEq] at h
    · rw [ha] at h
      cases j with
      | str sql =>
        by_cases ht : (jsTrim sql).length = 0
        · simp [ht, Run.mk.injEq] at h
        · simp only [if_neg ht] at h
          rcases hexec : executeSql c s sql tool.readOnly with ⟨es, eev, er⟩
          rw [hexec] at h
          cases er with
          | error e => simp [Run.mk.injEq] at h
          | ok result =>
            refine ⟨tool, sql, result, hfind, rfl, ?_, ?_⟩
            · rw [hexec]
            · simp only [Run.mk.injEq, Except.ok.injEq] at h
              exact h.2.2.symm
      | null => simp [Run.mk.injEq] at h
      | num n => simp [Run.mk.injEq] at h
      | arr l => simp [Run.mk.injEq] at h
      | obj l => simp [Run.mk.injEq] at h

theorem callTool_success_payload_check :
    ∃ tool sql result,
      TOOL_DEFINITIONS.find? (fun t => t.name == "query") = some tool ∧
      ((some [("sql", Json.str "SELECT 1")] : Option (List (String × Json))).bind
        (List.lookup "sql")) = some (Json.str sql) ∧
      (executeSql okClient () sql tool.readOnly).result = .ok result ∧
      (⟨[⟨"text", Json.stringify (Json.arr [])⟩], false⟩ : ToolResponse) =
        ⟨[⟨"text",
          Json.stringify (if tool.readOnly then Json.arr result.rows
            else Json.obj [("rowCount", jsonOfRowCount result.rowCount),
                           ("rows", Json.arr result.rows),
                           ("command", Json.str result.command)])⟩],
          false⟩ :=
  callTool_success_payload okClient () "query" (some [("sql", Json.str "SELECT 1")]) ()
    [Event.connect, Event.query "BEGIN TRANSACTION READ ONLY" [],
     Event.query "SELECT 1" [], Event.query "ROLLBACK" [], Event.release]
    ⟨[⟨"text", Json.stringify (Json.arr [])⟩], false⟩ rfl

/- ------------------------------------------------------------------ -/
/- URL model.  The WHATWG URL class used by the source is external;   -/
/- it is modelled structurally: a parsed URL is a record of protocol, -/
/- userinfo, host and path, href is its serialization, and resolving  -/
/- a relative reference against a base replaces the last path segment -/
/- (dot-segment normalization and percent-encoding are not modelled;  -/
/- no claim depends on them).                                         -/
/- ------------------------------------------------------------------ -/

/- Everything up to and including the last slash; empty when the list
   holds no slash. -/
def takeThroughLastSlash : List Char → List Char
  | [] => []
  | a :: rest =>
    if '/' ∈ rest then a :: takeThroughLastSlash rest
    else if a = '/' then ['/'] else []

def startsWithSlash (s : String) : Bool :=
  match s.data with
  | '/' :: _ => true
  | _ => false

/- Split a character list at the first occurrence of a separator:
   the part before it, and the part after it when it occurs. -/
def breakAt (sep : Char) : List Char → List Char × Option (List Char)
  | [] => ([], none)
  | a :: rest =>
    if a = sep then ([], some rest)
    else (a :: (breakAt sep rest).1, (breakAt sep rest).2)

/- Decomposition of a relative URL reference: the fragment starts at the
   first number sign, and the query at the first question mark before
   it; the path is what precedes both. -/
def relPathOf (rel : String) : List Char := (breakAt '?' (breakAt '#' rel.data).1).1

def relQueryOf (rel : String) : Option (List Char) := (breakAt '?' (breakAt '#' rel.data).1).2

def relFragOf (rel : String) : Option (List Char) := (breakAt '#' rel.data).2

def searchOf : Option (List Char) → String
  | none => ""
  | some q => "?" ++ ⟨q⟩

def hashOf : Option (List Char) → String
  | none => ""
  | some f => "#" ++ ⟨f⟩

/- A parsed URL: search carries its leading question mark (or is empty),
   hash carries its leading number sign (or is empty), matching the
   WHATWG search and hash properties. -/
structure URL where
  protocol : String
  username : String
  password : String
  host : String
  pathname : String
  search : String
  hash : String
deriving DecidableEq

def URL.userinfo (u : URL) : String :=
  if u.username = "" ∧ u.password = "" then ""
  else u.username ++ (if u.password = "" then "" else ":" ++ u.password) ++ "@"

def URL.href (u : URL) : String :=
  u.protocol ++ "//" ++ u.userinfo ++ u.host ++ u.pathname ++ u.search ++ u.hash

/- Merge of a relative path reference into a base path. -/
def mergePath (basePath rel : String) : String :=
  if basePath = "" then "/" ++ rel
  else ⟨takeThroughLastSlash basePath.data⟩ ++ rel

/- Resolution of a scheme-less, authority-less relative reference: an
   empty path without query keeps the base path and query (fragment-only
   reference); an empty path with a query keeps the base path; a
   non-empty path replaces the path (absolute when it starts with a
   slash, merged otherwise); the query and fragment of the reference
   always replace those of the base. -/
def URL.resolve (base : URL) (rel : String) : URL :=
  if relPathOf rel = [] then
    match relQueryOf rel with
    | none => { base with hash := hashOf (relFragOf rel) }
    | some q => { base with search := "?" ++ ⟨q⟩, hash := hashOf (relFragOf rel) }
  else
    { base with
      pathname :=
        if startsWithSlash ⟨relPathOf rel⟩ then (⟨relPathOf rel⟩ : String)
        else mergePath base.pathname ⟨relPathOf rel⟩,
      search := searchOf (relQueryOf rel),
      hash := hashOf (relFragOf rel) }

/- Extraction of the pathname from a serialized URL: skip to the first
   double slash, then skip the authority up to the next slash. -/
def dropThroughDoubleSlash : List Char → List Char
  | [] => []
  | a :: rest =>
    if a = '/' then
      match rest with
      | [] => []
      | b :: rest2 => if b = '/' then rest2 else dropThroughDoubleSlash rest
    else dropThroughDoubleSlash rest

def dropAuthority : List Char → List Char
  | [] => []
  | a :: rest =>
    if a = '/' ∨ a = '?' ∨ a = '#' then a :: rest else dropAuthority rest

/- The path part stops at the first query or fragment delimiter. -/
def takeUntilDelim : List Char → List Char
  | [] => []
  | a :: rest => if a = '?' ∨ a = '#' then [] else a :: takeUntilDelim rest

def parsePathname (uri : String) : String :=
  ⟨takeUntilDelim (dropAuthority (dropThroughDoubleSlash uri.data))⟩

/- JavaScript String.prototype.split with a single-character separator. -/
def splitChar (sep : Char) : List Char → List (List Char)
  | [] => [[]]
  | a :: rest =>
    if a = sep then [] :: splitChar sep rest
    else
      match splitChar sep rest with
      | [] => [[a]]
      | g :: gs => (a :: g) :: gs

def splitString (sep : Char) (s : String) : List String :=
  (splitChar sep s.data).map (fun l => ⟨l⟩)

/- ------------------------------------------------------------------ -/
/- Schema catalog handlers.                                           -/
/- ------------------------------------------------------------------ -/

def SCHEMA_PATH : String := "schema"

def tablesSql : String :=
  "SELECT table_name FROM information_schema.tables WHERE table_schema = \x27public\x27"

def columnsSql : String :=
  "SELECT column_name, data_type FROM information_schema.columns WHERE table_name = $1"

structure ResourceDescriptor where
  uri : String
  mimeType : String
  name : String
deriving DecidableEq

structure ResourceContents where
  uri : String
  mimeType : String
  text : String

inductive ReadError where
  | invalidResourceUri : ReadError
  | db : DbError → ReadError

/- row.table_name of a driver row; the modelled flows only ever reach
   this with object rows carrying a table_name string. -/
def rowTableName : Json → String
  | Json.obj fs =>
      match fs.lookup "table_name" with
      | some (Json.str t) => t
      | _ => ""
  | _ => ""

/- The ListResourcesRequest handler (src/postgres.ts lines 130-146). -/
def listResourcesHandler (c : Client σ) (s : σ) (base : URL) :
    Run σ DbError (List ResourceDescriptor) :=
  match c.runQuery s tablesSql [] with
  | (s1, .error e) =>
      ⟨s1, [Event.connect, Event.query tablesSql [], Event.release], .error e⟩
  | (s1, .ok res) =>
      ⟨s1, [Event.connect, Event.query tablesSql [], Event.release],
        .ok (res.rows.map (fun row =>
          ⟨(base.resolve (rowTableName row ++ "/" ++ SCHEMA_PATH)).href,
           "application/json",
           "\x22" ++ rowTableName row ++ "\x22 database schema"⟩))⟩

/- The ReadResourceRequest handler (src/postgres.ts lines 148-178): split
   the pathname on slashes, pop the schema marker and the table name,
   reject when the marker is wrong, otherwise query the column catalog
   parameterized by the table name (a pop of an exhausted component list,
   undefined in the source, is modelled by the empty string; the listed
   URIs never reach it). -/
def readResourceHandler (c : Client σ) (s : σ) (uri : String) :
    Run σ ReadError (List ResourceContents) :=
  if (splitString '/' (parsePathname uri)).getLast? ≠ some SCHEMA_PATH then
    ⟨s, [], .error .invalidResourceUri⟩
  else
    match c.runQuery s columnsSql
        [((splitString '/' (parsePathname uri)).dropLast.getLast?).getD ""] with
    | (s1, .error e) =>
        ⟨s1,
          [Event.connect,
           Event.query columnsSql
             [((splitString '/' (parsePathname uri)).dropLast.getLast?).getD ""],
           Event.release],
          .error (.db e)⟩
    | (s1, .ok res) =>
        ⟨s1,
          [Event.connect,
           Event.query columnsSql
             [((splitString '/' (parsePathname uri)).dropLast.getLast?).getD ""],
           Event.release],
          .ok [⟨uri, "application/json", Json.stringify (Json.arr res.rows)⟩]⟩

/- ------------------------------------------------------------------ -/
/- Startup configuration (src/postgres.ts lines 34-43).               -/
/- ------------------------------------------------------------------ -/

/- process.env.DATABASE_URL ?? args[0]. -/
def databaseUrl (envDatabaseUrl : Option String) (args : List String) : Option String :=
  match envDatabaseUrl with
  | some v => some v
  | none => args.head?

structure StartupFailure where
  stderrMessage : String
  exitCode : Nat
deriving DecidableEq

def startupDiagnostic : String :=
  "Please set DATABASE_URL in the environment or provide a database URL as a command-line argument"

/- The falsiness guard of the source: both a missing value and the empty
   string fail the check and exit with status 1. -/
def startup (envDatabaseUrl : Option String) (args : List String) :
    Except StartupFailure String :=
  match databaseUrl envDatabaseUrl args with
  | none => .error ⟨startupDiagnostic, 1⟩
  | some url => if url = "" then .error ⟨startupDiagnostic, 1⟩ else .ok url

/- ------------------------------------------------------------------ -/
/- Relational semantics of the two catalog queries, to instantiate    -/
/- the oracle for the round-trip and filtering claims.                -/
/- ------------------------------------------------------------------ -/

structure TableRow where
  table_schema : String
  table_name : String
deriving DecidableEq

structure ColumnRow where
  table_schema : String
  table_name : String
  column_name : String
  data_type : String
deriving DecidableEq

structure Catalog where
  tables : List TableRow
  columns : List ColumnRow

/- Rows of columnsSql: column_name and data_type of the rows of
   information_schema.columns whose table_name equals the parameter —
   with no filter on table_schema. -/
def columnsQueryRows (db : Catalog) (name : String) : List Json :=
  (db.columns.filter (fun r => r.table_name == name)).map
    (fun r => Json.obj [("column_name", Json.str r.column_name),
                        ("data_type", Json.str r.data_type)])

def publicTableNames (db : Catalog) : List String :=
  (db.tables.filter (fun t => t.table_schema == "public")).map (fun t => t.table_name)

/-- Claim C3: every connection lease acquired from the pool by
executeSql, by the resource-listing handler or by the resource-read
handler is released on every exit path: in every trace the number of
connect events equals the number of release events. -/
theorem lease_always_released (c : Client σ) (s : σ) (sql : String) (ro : Bool)
    (base : URL) (uri : String) :
    leaseBalanced (executeSql c s sql ro).events ∧
    leaseBalanced (listResourcesHandler c s base).events ∧
    leaseBalanced (readResourceHandler c s uri).events := by
  refine ⟨?_, ?_, ?_⟩
  · unfold executeSql
    rcases h1 : c.runQuery s (if ro then "BEGIN TRANSACTION READ ONLY" else "BEGIN") [] with ⟨s1, r1⟩
    cases r1 with
    | error e =>
      simp [h1, leaseBalanced, countConnect_append, countRelease_append,
        rollbackRecovery_countConnect, rollbackRecovery_countRelease,
        countConnect, countRelease]
    | ok v1 =>
      rcases h2 : c.runQuery s1 sql [] with ⟨s2, r2⟩
      cases r2 with
      | error e =>
        simp [h1, h2, leaseBalanced, countConnect_append, countRelease_append,
          rollbackRecovery_countConnect, rollbackRecovery_countRelease,
          countConnect, countRelease]
      | ok v2 =>
        rcases h3 : c.runQuery s2 (if ro then "ROLLBACK" else "COMMIT") [] with ⟨s3, r3⟩
        cases r3 with
        | error e =>
          simp [h1, h2, h3, leaseBalanced, countConnect_append, countRelease_append,
            rollbackRecovery_countConnect, rollbackRecovery_countRelease,
            countConnect, countRelease]
        | ok v3 =>
          simp [h1, h2, h3, leaseBalanced, countConnect, countRelease]
  · unfold listResourcesHandler
    rcases h : c.runQuery s tablesSql [] with ⟨s1, r⟩
    cases r <;> simp [h, leaseBalanced, countConnect, countRelease]
  · unfold readResourceHandler
    split
    · simp [leaseBalanced, countConnect, countRelease]
    · rcases h : c.runQuery s columnsSql
        [((splitString '/' (parsePathname uri)).dropLast.getLast?).getD ""] with ⟨s1, r⟩
      cases r <;> simp [h, leaseBalanced, countConnect, countRelease]

/-- Claim C7: the connection string comes from the environment variable
when it is present and from the first command-line argument only when the
environment variable is absent; when neither is present the process fails
with the diagnostic on the error stream and a non-zero exit code. -/
theorem startup_connection_string :
    (∀ v args, databaseUrl (some v) args = some v) ∧
    (∀ args, databaseUrl none args = args.head?) ∧
    ∃ f, startup none [] = .error f ∧
      f.stderrMessage = startupDiagnostic ∧ f.exitCode ≠ 0 :=
  ⟨fun _ _ => rfl, fun _ => rfl, ⟨startupDiagnostic, 1⟩, rfl, rfl, by decide⟩

/-- Claim C10: the listing query enumerates exactly the tables whose
table_schema is public, while the resource-read column query filters by
table name alone, so it returns the columns of every table of that name
in any schema of the database. -/
theorem catalog_schema_filter_asymmetry :
    (∀ db t, t ∈ publicTableNames db ↔
      ∃ r, r ∈ db.tables ∧ r.table_schema = "public" ∧ r.table_name = t) ∧
    (∀ db name r, r ∈ db.columns → r.table_name = name →
      Json.obj [("column_name", Json.str r.column_name),
                ("data_type", Json.str r.data_type)] ∈ columnsQueryRows db name) := by
  constructor
  · intro db t
    simp only [publicTableNames, List.mem_map, List.mem_filter, beq_iff_eq]
    constructor
    · rintro ⟨r, ⟨hr, hs⟩, hn⟩
      exact ⟨r, hr, hs, hn⟩
    · rintro ⟨r, hr, hs, hn⟩
      exact ⟨r, ⟨hr, hs⟩, hn⟩
  · intro db name r hr hn
    simp only [columnsQueryRows, List.mem_map, List.mem_filter, beq_iff_eq]
    exact ⟨r, ⟨hr, hn⟩, rfl⟩

/- A catalog with a public table and a same-named table in another
   schema, to evaluate the filtering asymmetry at a concrete input. -/
def secretDb : Catalog :=
  ⟨[⟨"public", "accounts"⟩],
   [⟨"internal", "accounts", "secret_col", "text"⟩]⟩

theorem catalog_schema_filter_asymmetry_check :
    ("accounts" ∈ publicTableNames secretDb ↔
      ∃ r, r ∈ secretDb.tables ∧ r.table_schema = "public" ∧ r.table_name = "accounts") ∧
    Json.obj [("column_name", Json.str "secret_col"),
              ("data_type", Json.str "text")] ∈ columnsQueryRows secretDb "accounts" :=
  ⟨catalog_schema_filter_asymmetry.1 secretDb "accounts",
   catalog_schema_filter_asymmetry.2 secretDb "accounts"
     ⟨"internal", "accounts", "secret_col", "text"⟩ (by simp [secretDb]) rfl⟩

lemma splitChar_ne_nil (sep : Char) (l : List Char) : splitChar sep l ≠ [] := by
  cases l with
  | nil => simp [splitChar]
  | cons a rest =>
    by_cases ha : a = sep
    · simp [splitChar, ha]
    · rcases hs : splitChar sep rest with _ | ⟨g, gs⟩
      · simp [splitChar, ha, hs]
      · simp [splitChar, ha, hs]

